import Mathlib

/-
  Verification of the ECDSA library core (src/src/lib.rs and src/src/ecdsa.rs).

  Shallow embedding conventions:
  - `BigUint` becomes `Nat` (arbitrary precision, non-negative).
  - A Rust function that can panic (via `assert!`, `panic!`, `todo!`, or a
    BigUint operation that panics, such as modpow with modulus 0 or an
    underflowing subtraction) is embedded as a function into `Option`,
    with `none` marking the panic.
  - `double`, `scalar_mul`, the final `add` and `inv_mult_prime` used by
    src/src/ecdsa.rs come from the external ec_generic crate whose source is
    not in the repository; they are modelled from the specification
    (sections 4.1 and 4.2.2 to 4.2.4) and carry doc comments starting with
    "Modelled from the spec:".
-/

namespace ECDSARepo

/-- Point from src/src/lib.rs: `Coor(BigUint, BigUint)` or `Identity`. -/
inductive Point where
  | Coor (x y : Nat)
  | Identity
deriving DecidableEq

/-- EllipticCurve from src/src/lib.rs: y^2 = x^3 + a x + b over the prime p. -/
structure EllipticCurve where
  a : Nat
  b : Nat
  p : Nat
deriving DecidableEq

namespace FiniteField

/-- BigUint::modpow b e m = b^e mod m; num-bigint panics when the modulus is 0. -/
def modpow (b e m : Nat) : Option Nat :=
  if m = 0 then none else some (b ^ e % m)

/-- FiniteField::add from src/src/lib.rs lines 74-78: (c + d).modpow(1, p). -/
def add (c d p : Nat) : Option Nat :=
  modpow (c + d) 1 p

/-- FiniteField::mult from src/src/lib.rs lines 80-84: (c * d).modpow(1, p). -/
def mult (c d p : Nat) : Option Nat :=
  modpow (c * d) 1 p

/-- FiniteField::inv_addition from src/src/lib.rs lines 86-91:
    asserts c < p (panic otherwise), then returns p - c, unreduced. -/
def inv_addition (c p : Nat) : Option Nat :=
  if c < p then some (p - c) else none

/-- FiniteField::subtract from src/src/lib.rs lines 93-96:
    add(c, inv_addition(d, p), p). -/
def subtract (c d p : Nat) : Option Nat := do
  let d_inv ← inv_addition d p
  add c d_inv p

/-- FiniteField::inv_multiplication from src/src/lib.rs lines 98-103:
    c.modpow(p - 2, p), Fermat's little theorem, with no zero check.
    BigUint p - 2 panics for p < 2 (underflow). -/
def inv_multiplication (c p : Nat) : Option Nat :=
  if p < 2 then none else modpow c (p - 2) p

/-- FiniteField::divide from src/src/lib.rs lines 105-108:
    mult(c, inv_multiplication(d, p), p). -/
def divide (c d p : Nat) : Option Nat := do
  let d_inv ← inv_multiplication d p
  mult c d_inv p

/-- Modelled from the spec: ec_generic's FiniteField::inv_mult_prime, used by
    src/src/ecdsa.rs but absent from the repository sources. Section 4.1:
    inv(c, p) = c^(p-2) mod p, and if c = 0 it fails with NonInvertible.
    The c^(p-2) mod p computation is the inv_multiplication of the draft. -/
def inv_mult_prime (c p : Nat) : Option Nat :=
  if c = 0 then none else inv_multiplication c p

end FiniteField

namespace EllipticCurve

/-- EllipticCurve::is_on_curve from src/src/lib.rs lines 56-68:
    for Coor(x, y), checks y^2 = x^3 + a x + b with FF operations mod p;
    Identity is on the curve. -/
def is_on_curve (ec : EllipticCurve) (c : Point) : Option Bool :=
  match c with
  | Point.Coor x y => do
      let y2 ← FiniteField.modpow y 2 ec.p
      let x3 ← FiniteField.modpow x 3 ec.p
      let ax ← FiniteField.mult ec.a x ec.p
      let x3plusax ← FiniteField.add x3 ax ec.p
      let rhs ← FiniteField.add x3plusax ec.b ec.p
      some (y2 == rhs)
  | Point.Identity => some true

/-- EllipticCurve::add from src/src/lib.rs lines 20-44: asserts both points on
    the curve and asserts the points are distinct (panic if c = d), then
    handles the Identity cases and otherwise applies the chord formula
    s = (y2 - y1)/(x2 - x1), x3 = s^2 - x1 - x2, y3 = s (x1 - x3) - y1. -/
def add (ec : EllipticCurve) (c d : Point) : Option Point := do
  let oc ← ec.is_on_curve c
  let od ← ec.is_on_curve d
  if oc then
    if od then
      if c = d then none
      else
        match c, d with
        | Point.Identity, _ => some d
        | _, Point.Identity => some c
        | Point.Coor x1 y1, Point.Coor x2 y2 => do
            let y2minusy1 ← FiniteField.subtract y2 y1 ec.p
            let x2minusx1 ← FiniteField.subtract x2 x1 ec.p
            let s ← FiniteField.divide y2minusy1 x2minusx1 ec.p
            let s2 ← FiniteField.modpow s 2 ec.p
            let s2minusx1 ← FiniteField.subtract s2 x1 ec.p
            let x3 ← FiniteField.subtract s2minusx1 x2 ec.p
            let x1minusx3 ← FiniteField.subtract x1 x3 ec.p
            let sx1minusx3 ← FiniteField.mult s x1minusx3 ec.p
            let y3 ← FiniteField.subtract sx1minusx3 y1 ec.p
            some (Point.Coor x3 y3)
    else none
  else none

/-- EllipticCurve::double from src/src/lib.rs lines 46-48: todo!(), which
    panics unconditionally. -/
def double (_c : Point) : Option Point := none

/-- EllipticCurve::scalar_mul from src/src/lib.rs lines 50-54: todo!(), which
    panics unconditionally. -/
def scalar_mul (_c : Point) (_d : Nat) : Option Point := none

/-- Modelled from the spec: the doubling routine of the final library
    (ec_generic), missing from the repository sources (src/src/lib.rs leaves
    it todo!()). Section 4.2.3: Infinity maps to Infinity; Affine(x, y) with
    y = 0 maps to Infinity; otherwise s = (3 x^2 + a)/(2 y) mod p,
    x3 = s^2 - 2 x, y3 = s (x - x3) - y, all in FF. -/
def doubleSpec (ec : EllipticCurve) (c : Point) : Option Point :=
  match c with
  | Point.Identity => some Point.Identity
  | Point.Coor x y =>
      if y = 0 then some Point.Identity
      else do
        let x2 ← FiniteField.mult x x ec.p
        let threex2 ← FiniteField.mult 3 x2 ec.p
        let num ← FiniteField.add threex2 ec.a ec.p
        let den ← FiniteField.mult 2 y ec.p
        let s ← FiniteField.divide num den ec.p
        let s2 ← FiniteField.mult s s ec.p
        let twox ← FiniteField.mult 2 x ec.p
        let x3 ← FiniteField.subtract s2 twox ec.p
        let xminusx3 ← FiniteField.subtract x x3 ec.p
        let sxminusx3 ← FiniteField.mult s xminusx3 ec.p
        let y3 ← FiniteField.subtract sxminusx3 y ec.p
        some (Point.Coor x3 y3)

/-- Modelled from the spec: the point addition of the final library
    (ec_generic), used by src/src/ecdsa.rs but missing from the repository
    sources (the draft add in src/src/lib.rs rejects equal points and lacks
    the inverse-point case). Section 4.2.2: precondition both points on the
    curve (PreconditionViolation otherwise); Identity is neutral; if
    x1 = x2 and y1 = (p - y2) mod p return Infinity; if the points are equal
    dispatch to doubling; otherwise the chord formula. -/
def addSpec (ec : EllipticCurve) (c d : Point) : Option Point := do
  let oc ← ec.is_on_curve c
  let od ← ec.is_on_curve d
  if oc then
    if od then
      match c, d with
      | Point.Identity, _ => some d
      | _, Point.Identity => some c
      | Point.Coor x1 y1, Point.Coor x2 y2 =>
          if x1 = x2 ∧ y1 = (ec.p - y2) % ec.p then some Point.Identity
          else if x1 = x2 ∧ y1 = y2 then doubleSpec ec (Point.Coor x1 y1)
          else do
            let y2minusy1 ← FiniteField.subtract y2 y1 ec.p
            let x2minusx1 ← FiniteField.subtract x2 x1 ec.p
            let s ← FiniteField.divide y2minusy1 x2minusx1 ec.p
            let s2 ← FiniteField.modpow s 2 ec.p
            let s2minusx1 ← FiniteField.subtract s2 x1 ec.p
            let x3 ← FiniteField.subtract s2minusx1 x2 ec.p
            let x1minusx3 ← FiniteField.subtract x1 x3 ec.p
            let sx1minusx3 ← FiniteField.mult s x1minusx3 ec.p
            let y3 ← FiniteField.subtract sx1minusx3 y1 ec.p
            some (Point.Coor x3 y3)
    else none
  else none

/-- Modelled from the spec: the left-to-right double-and-add loop of the
    final library's scalar multiplication (section 4.2.4), expressed with a
    fuel argument so that the recursion is structural; the initial fuel k is
    always enough since the bit length of k is at most k. -/
def scalarLoop (ec : EllipticCurve) (c : Point) : Nat → Nat → Option Point
  | _, 0 => some Point.Identity
  | 0, _ + 1 => none
  | fuel + 1, k + 1 => do
      let r ← scalarLoop ec c fuel ((k + 1) / 2)
      let r2 ← doubleSpec ec r
      if (k + 1) % 2 = 1 then addSpec ec r2 c else some r2

/-- Modelled from the spec: the scalar multiplication of the final library
    (ec_generic), used by src/src/ecdsa.rs but missing from the repository
    sources (src/src/lib.rs leaves it todo!()). Section 4.2.4: k = 0 or
    P = Infinity give Infinity; otherwise walk the bits of k from most
    significant to least, doubling the accumulator and adding P on 1-bits. -/
def scalarMulSpec (ec : EllipticCurve) (c : Point) (k : Nat) : Option Point :=
  if k = 0 ∨ c = Point.Identity then some Point.Identity
  else scalarLoop ec c k k

end EllipticCurve

/-- ECDSA context from src/src/ecdsa.rs lines 6-10. -/
structure ECDSA where
  elliptic_curve : EllipticCurve
  a_gen : Point
  q_order : Nat

namespace ECDSA

open EllipticCurve

/-- ECDSA::sign from src/src/ecdsa.rs lines 38-69: asserts hash < q,
    priv_key < q, k_random < q; computes R = k G with the library scalar
    multiplication; if R is affine returns (r, s) with r the raw x-coordinate
    of R and s = ((r d mod q) + h mod q) k^(q-2) mod q; if R is the Identity
    it panics. -/
def sign (E : ECDSA) (hash priv_key k_random : Nat) : Option (Nat × Nat) :=
  if hash < E.q_order then
    if priv_key < E.q_order then
      if k_random < E.q_order then do
        let r_point ← scalarMulSpec E.elliptic_curve E.a_gen k_random
        match r_point with
        | Point.Coor r _ => do
            let s ← FiniteField.mult r priv_key E.q_order
            let s ← FiniteField.add s hash E.q_order
            let k_inv ← FiniteField.inv_mult_prime k_random E.q_order
            let s ← FiniteField.mult s k_inv E.q_order
            some (r, s)
        | Point.Identity => none
      else none
    else none
  else none

/-- ECDSA::verify from src/src/ecdsa.rs lines 77-96: asserts hash < q;
    computes s_inv = s^(-1) mod q, u1 = s_inv h mod q, u2 = s_inv r mod q,
    P = u1 G + u2 Q with the library operations; if P is affine returns
    x(P) == r, and if P is the Identity it panics. -/
def verify (E : ECDSA) (hash : Nat) (pub_key : Point) (signature : Nat × Nat) :
    Option Bool :=
  if hash < E.q_order then
    match signature with
    | (r, s) => do
        let s_inv ← FiniteField.inv_mult_prime s E.q_order
        let u1 ← FiniteField.mult s_inv hash E.q_order
        let u2 ← FiniteField.mult s_inv r E.q_order
        let u1a ← scalarMulSpec E.elliptic_curve E.a_gen u1
        let u2b ← scalarMulSpec E.elliptic_curve pub_key u2
        let pt ← addSpec E.elliptic_curve u1a u2b
        match pt with
        | Point.Coor xp _ => some (xp == r)
        | Point.Identity => none
  else none

/-- Big-endian byte interpretation, BigUint::from_bytes_be. -/
def from_bytes_be (bytes : List Nat) : Nat :=
  bytes.foldl (fun acc byte => 256 * acc + byte) 0

/-- ECDSA::generate_hash_less_than from src/src/ecdsa.rs lines 99-106,
    parameterized by the digest bytes (the sha256 digest of the message is an
    external collaborator, out of the core's scope): interprets the bytes as
    a big-endian integer H, then returns H.modpow(1, max - 1) + 1.
    BigUint max - 1 underflows (panics) for max = 0, and modpow panics when
    its modulus max - 1 is 0. -/
def generate_hash_less_than (hash_bytes : List Nat) (max_ : Nat) : Option Nat := do
  let h ← FiniteField.modpow (from_bytes_be hash_bytes) 1 (max_ - 1)
  some (h + 1)

/-- Recombined point of ECDSA::verify (src/src/ecdsa.rs lines 84-89):
    P = u1 G + u2 Q with u1 = s^(-1) hash mod q and u2 = s^(-1) r mod q,
    isolated so that the behaviour of verify can be stated in terms of it. -/
def recombinePoint (E : ECDSA) (hash : Nat) (pub_key : Point) (r s : Nat) :
    Option Point := do
  let s_inv ← FiniteField.inv_mult_prime s E.q_order
  let u1 ← FiniteField.mult s_inv hash E.q_order
  let u2 ← FiniteField.mult s_inv r E.q_order
  let u1a ← scalarMulSpec E.elliptic_curve E.a_gen u1
  let u2b ← scalarMulSpec E.elliptic_curve pub_key u2
  addSpec E.elliptic_curve u1a u2b

end ECDSA

/-- The toy curve of the repository tests: y^2 = x^3 + 2x + 2 mod 17. -/
def toyEC : EllipticCurve := { a := 2, b := 2, p := 17 }

/-- The toy generator (5, 1) of order 19 used by the repository tests. -/
def toyG : Point := Point.Coor 5 1

/-- The toy ECDSA context of the repository tests (q = 19). -/
def toyECDSA : ECDSA := { elliptic_curve := toyEC, a_gen := toyG, q_order := 19 }

/-- A valid context whose field prime exceeds the subgroup order:
    y^2 = x^3 + 2 mod 19, generator (4, 3) of prime order 13. -/
def bigxEC : EllipticCurve := { a := 0, b := 2, p := 19 }

/-- The generator (4, 3) of bigxEC, of prime order 13. -/
def bigxG : Point := Point.Coor 4 3

/-- ECDSA context over bigxEC with q = 13 < p = 19. -/
def bigxECDSA : ECDSA := { elliptic_curve := bigxEC, a_gen := bigxG, q_order := 13 }

/-- C10: FiniteField::add and FiniteField::mult are total for every modulus
    p at least 1 and return the canonical residues (c + d) mod p and
    (c * d) mod p for all inputs, including inputs at least p. -/
theorem ff_add_mult_total : ∀ c d p : Nat, 1 ≤ p →
    FiniteField.add c d p = some ((c + d) % p) ∧
    FiniteField.mult c d p = some ((c * d) % p) := by
  intro c d p hp
  have hp0 : p ≠ 0 := by omega
  constructor <;>
    simp [FiniteField.add, FiniteField.mult, FiniteField.modpow, hp0]

/-- Witness for ff_add_mult_total at unreduced inputs c = 100, d = 205, p = 7. -/
theorem ff_add_mult_total_witness :
    FiniteField.add 100 205 7 = some ((100 + 205) % 7) ∧
    FiniteField.mult 100 205 7 = some ((100 * 205) % 7) :=
  ff_add_mult_total 100 205 7 (by decide)

/-- C9: generate_hash_less_than returns (H mod (max - 1)) + 1 where H is the
    digest bytes read as a big-endian integer, and the result lies in
    [1, max), hence is nonzero. -/
theorem generate_hash_formula : ∀ (bytes : List Nat) (maxq : Nat), 2 ≤ maxq →
    ECDSA.generate_hash_less_than bytes maxq
      = some (ECDSA.from_bytes_be bytes % (maxq - 1) + 1) ∧
    1 ≤ ECDSA.from_bytes_be bytes % (maxq - 1) + 1 ∧
    ECDSA.from_bytes_be bytes % (maxq - 1) + 1 < maxq := by
  intro bytes maxq h2
  have hm : maxq - 1 ≠ 0 := by omega
  refine ⟨?_, by omega, ?_⟩
  · simp [ECDSA.generate_hash_less_than, FiniteField.modpow, hm]
  · have hlt := Nat.mod_lt (ECDSA.from_bytes_be bytes) (y := maxq - 1) (by omega)
    omega

/-- Witness for generate_hash_formula at bytes [4, 210] (H = 1234), max = 19. -/
theorem generate_hash_formula_witness :
    ECDSA.generate_hash_less_than [4, 210] 19
      = some (ECDSA.from_bytes_be [4, 210] % (19 - 1) + 1) ∧
    1 ≤ ECDSA.from_bytes_be [4, 210] % (19 - 1) + 1 ∧
    ECDSA.from_bytes_be [4, 210] % (19 - 1) + 1 < 19 :=
  generate_hash_formula [4, 210] 19 (by decide)

/-- C7: at c = 0, p = 5 the code returns p - 0 = 5, an unreduced value equal
    to the modulus, not the canonical (p - 0) mod p = 0 the claim states. -/
theorem inv_addition_zero_bug :
    FiniteField.inv_addition 0 5 = some 5 ∧
    FiniteField.inv_addition 0 5 ≠ some ((5 - 0) % 5) := by decide

/-- C8 counterexample: inverting 0 does not fail; inv_multiplication 0 5
    returns the numeric value 0 (computed as 0^3 mod 5). -/
theorem inv_multiplication_zero_cex :
    FiniteField.inv_multiplication 0 5 = some 0 := by decide

/-- C8 amended: inv_multiplication applies Fermat with no zero check: for
    prime p it returns c^(p-2) mod p for every c, which is a modular inverse
    of c whenever p does not divide c, and which is the numeric value 0
    (not a failure) at c = 0 for p at least 3. -/
theorem inv_multiplication_fermat : ∀ p c : Nat, Nat.Prime p →
    (¬ p ∣ c →
      FiniteField.inv_multiplication c p = some (c ^ (p - 2) % p) ∧
      c * (c ^ (p - 2) % p) % p = 1) ∧
    (2 < p → FiniteField.inv_multiplication 0 p = some 0) := by
  intro p c hp
  have hp2 : 2 ≤ p := hp.two_le
  have hplt : ¬ p < 2 := by omega
  have hpz : p ≠ 0 := by omega
  constructor
  · intro hdvd
    constructor
    · simp [FiniteField.inv_multiplication, FiniteField.modpow, hplt, hpz]
    · have hco : Nat.Coprime c p :=
        Nat.Coprime.symm ((Nat.Prime.coprime_iff_not_dvd hp).mpr hdvd)
      have heuler : c ^ (p - 1) ≡ 1 [MOD p] := by
        have ht := Nat.ModEq.pow_totient hco
        rwa [Nat.totient_prime hp] at ht
      have hmod : c * (c ^ (p - 2) % p) % p = c * c ^ (p - 2) % p := by
        conv_lhs => rw [Nat.mul_mod]
        conv_rhs => rw [Nat.mul_mod]
        rw [Nat.mod_mod_of_dvd _ (dvd_refl p)]
      have hpow : c * c ^ (p - 2) = c ^ (p - 1) := by
        rw [show p - 1 = p - 2 + 1 by omega, pow_succ]
        ring
      have hone : c ^ (p - 1) % p = 1 := by
        have h1 : c ^ (p - 1) % p = 1 % p := heuler
        rwa [Nat.mod_eq_of_lt (by omega : 1 < p)] at h1
      rw [hmod, hpow, hone]
  · intro hp3
    have : p - 2 ≠ 0 := by omega
    simp [FiniteField.inv_multiplication, FiniteField.modpow, hplt, hpz,
      zero_pow this]

/-- Witness for inv_multiplication_fermat at p = 11, c = 4. -/
theorem inv_multiplication_fermat_witness :
    (FiniteField.inv_multiplication 4 11 = some (4 ^ (11 - 2) % 11) ∧
      4 * (4 ^ (11 - 2) % 11) % 11 = 1) ∧
    FiniteField.inv_multiplication 0 11 = some 0 :=
  ⟨(inv_multiplication_fermat 11 4 (by norm_num)).1 (by norm_num),
    (inv_multiplication_fermat 11 4 (by norm_num)).2 (by norm_num)⟩

/-- C3: on the toy curve, adding the on-curve points (5, 1) and its inverse
    (5, 16) with the draft EllipticCurve::add does not give Identity: it
    returns the point (7, 16), which is not even on the curve, while the
    spec-modelled final addition returns Identity there. -/
theorem add_inverse_point_bug :
    EllipticCurve.add toyEC (Point.Coor 5 1) (Point.Coor 5 16)
      = some (Point.Coor 7 16) ∧
    EllipticCurve.is_on_curve toyEC (Point.Coor 7 16) = some false ∧
    EllipticCurve.addSpec toyEC (Point.Coor 5 1) (Point.Coor 5 16)
      = some Point.Identity := by decide

/-- C6 counterexample: on the toy curve, adding the on-curve point (5, 1) to
    itself with EllipticCurve::add panics (the assertion that the points
    differ fails) instead of dispatching to a doubling routine. -/
theorem add_same_point_cex :
    EllipticCurve.add toyEC (Point.Coor 5 1) (Point.Coor 5 1) = none := by decide

/-- C6 amended: for every curve and every point, add(P, P) panics on the
    assertion that the two points differ, and the draft double itself is an
    unimplemented todo!() that always panics; neither ever produces a point. -/
theorem add_same_point_fails : ∀ (ec : EllipticCurve) (c : Point),
    EllipticCurve.add ec c c = none ∧ EllipticCurve.double c = none := by
  intro ec c
  refine ⟨?_, rfl⟩
  cases h : ec.is_on_curve c with
  | none => simp [EllipticCurve.add, h]
  | some b => cases b <;> simp [EllipticCurve.add, h]

/-- C5 counterexample: on the toy curve with valid input h = 1, d = 1, k = 7,
    the nonce point R = 7 G = (0, 6) has x-coordinate 0, so r = 0; the claim
    demands a BadNonce failure, but sign returns the signature (0, 11). -/
theorem sign_zero_r_cex : toyECDSA.sign 1 1 7 = some (0, 11) := by decide

/-- C1 counterexample: over y^2 = x^3 + 2 mod 19 with generator (4, 3) of
    prime order q = 13, the nonce k = 2 gives R = (18, 18); with h = d = 1
    sign returns r = 18, the raw x-coordinate, although 18 mod 13 is not 18,
    so r is not x(R) reduced modulo q as the claim states. -/
theorem sign_raw_x_cex :
    EllipticCurve.scalarMulSpec bigxEC bigxG 2 = some (Point.Coor 18 18) ∧
    bigxECDSA.sign 1 1 2 = some (18, 3) ∧
    (18 : Nat) % 13 ≠ 18 := by decide

/-- C2 counterexample: on the toy context with valid hash h = 1, valid public
    key G, and range-valid signature (r, s) = (18, 1), the recombined point
    P = 1 G + 18 G is Infinity; the claim demands the result false, but
    verify panics instead of returning false. -/
theorem verify_identity_panic_cex :
    toyECDSA.verify 1 toyG (18, 1) = none := by decide

/-- Helper: the scalar-multiplication loop does not depend on the fuel as
    long as the fuel is at least the scalar. -/
theorem scalarLoop_fuel_eq (ec : EllipticCurve) (c : Point) :
    ∀ k f g : Nat, k ≤ f → k ≤ g →
      EllipticCurve.scalarLoop ec c f k = EllipticCurve.scalarLoop ec c g k := by
  intro k
  induction k using Nat.strong_induction_on with
  | _ k ih =>
    intro f g hf hg
    cases k with
    | zero => cases f <;> cases g <;> rfl
    | succ k' =>
      cases f with
      | zero => omega
      | succ f' =>
        cases g with
        | zero => omega
        | succ g' =>
          have hlt : (k' + 1) / 2 < k' + 1 :=
            Nat.div_lt_self (Nat.succ_pos k') (by omega)
          have hrec := ih ((k' + 1) / 2) hlt f' g' (by omega) (by omega)
          simp only [EllipticCurve.scalarLoop]
          rw [hrec]

/-- C4: scalar multiplication is double-and-add over the binary expansion of
    k: it returns Infinity when k = 0 or the point is Infinity, and
    otherwise it is the double of the result for the high bits of k,
    followed by an addition of the point exactly when the lowest bit of k
    is 1 (the left-to-right walk expressed as a recurrence). -/
theorem scalar_mul_double_and_add : ∀ (ec : EllipticCurve) (c : Point) (k : Nat),
    ((k = 0 ∨ c = Point.Identity) →
      EllipticCurve.scalarMulSpec ec c k = some Point.Identity) ∧
    (k ≠ 0 → c ≠ Point.Identity →
      EllipticCurve.scalarMulSpec ec c k =
        Option.bind (EllipticCurve.scalarMulSpec ec c (k / 2)) (fun r =>
          Option.bind (EllipticCurve.doubleSpec ec r) (fun r2 =>
            if k % 2 = 1 then EllipticCurve.addSpec ec r2 c else some r2))) := by
  intro ec c k
  constructor
  · intro h
    rw [EllipticCurve.scalarMulSpec, if_pos h]
  · intro hk hc
    have hcond : ¬ (k = 0 ∨ c = Point.Identity) := by tauto
    rw [EllipticCurve.scalarMulSpec, if_neg hcond]
    obtain ⟨k', rfl⟩ : ∃ k', k = k' + 1 := ⟨k - 1, by omega⟩
    by_cases hh : (k' + 1) / 2 = 0
    · have hk0 : k' = 0 := by omega
      subst hk0
      rw [EllipticCurve.scalarMulSpec, if_pos (Or.inl hh)]
      simp [EllipticCurve.scalarLoop]
    · have hcond2 : ¬ ((k' + 1) / 2 = 0 ∨ c = Point.Identity) := by tauto
      rw [EllipticCurve.scalarMulSpec, if_neg hcond2]
      simp only [EllipticCurve.scalarLoop]
      rw [scalarLoop_fuel_eq ec c ((k' + 1) / 2) k' ((k' + 1) / 2) (by omega)
        (Nat.le_refl _)]
      rfl

/-- Witness for scalar_mul_double_and_add on the toy curve with k = 19. -/
theorem scalar_mul_double_and_add_witness :
    EllipticCurve.scalarMulSpec toyEC toyG 19 =
      Option.bind (EllipticCurve.scalarMulSpec toyEC toyG (19 / 2)) (fun r =>
        Option.bind (EllipticCurve.doubleSpec toyEC r) (fun r2 =>
          if 19 % 2 = 1 then EllipticCurve.addSpec toyEC r2 toyG else some r2)) :=
  (scalar_mul_double_and_add toyEC toyG 19).2 (by decide) (by decide)

/-- C1 amended: on valid inputs 0 < h, d, k < q with R = k G affine, sign
    returns the pair (x(R), s) where x(R) is the raw, unreduced x-coordinate
    of R (not x(R) mod q) and s = (h + d x(R)) k^(q-2) mod q. -/
theorem sign_formula : ∀ (E : ECDSA) (h d k x y : Nat),
    0 < h → h < E.q_order → 0 < d → d < E.q_order → 0 < k → k < E.q_order →
    EllipticCurve.scalarMulSpec E.elliptic_curve E.a_gen k = some (Point.Coor x y) →
    E.sign h d k = some (x, (h + d * x) * k ^ (E.q_order - 2) % E.q_order) := by
  intro E h d k x y h0 hq d0 dq k0 kq hR
  have hqz : E.q_order ≠ 0 := by omega
  have hknz : k ≠ 0 := by omega
  have hnlt : ¬ E.q_order < 2 := by omega
  rw [ECDSA.sign, if_pos hq, if_pos dq, if_pos kq, hR]
  simp [FiniteField.mult, FiniteField.add, FiniteField.modpow,
    FiniteField.inv_mult_prime, FiniteField.inv_multiplication, hqz, hknz, hnlt]
  calc (x * d % E.q_order + h) * k ^ (E.q_order - 2) % E.q_order
      = (x * d + h) * k ^ (E.q_order - 2) % E.q_order :=
        ((Nat.mod_modEq (x * d) E.q_order).add_right h).mul_right _
    _ = (h + d * x) * k ^ (E.q_order - 2) % E.q_order := by
        rw [show x * d + h = h + d * x by ring]

/-- Witness for sign_formula on the toy context with h = 1, d = 7, k = 18,
    where R = 18 G = (5, 16). -/
theorem sign_formula_witness :
    toyECDSA.sign 1 7 18 =
      some (5, (1 + 7 * 5) * 18 ^ (toyECDSA.q_order - 2) % toyECDSA.q_order) :=
  sign_formula toyECDSA 1 7 18 5 16 (by decide) (by decide) (by decide)
    (by decide) (by decide) (by decide) (by decide)

/-- C5 amended: on valid inputs 0 < h, d, k < q, sign fails (with a panic,
    not a recoverable error) exactly when R = k G is not an affine point,
    that is, when the scalar multiplication yields Infinity or itself
    panics; r = 0 and s = 0 are never checked, so they do not cause
    failure. -/
theorem sign_none_iff : ∀ (E : ECDSA) (h d k : Nat),
    0 < h → h < E.q_order → 0 < d → d < E.q_order → 0 < k → k < E.q_order →
    (E.sign h d k = none ↔
      EllipticCurve.scalarMulSpec E.elliptic_curve E.a_gen k = none ∨
      EllipticCurve.scalarMulSpec E.elliptic_curve E.a_gen k = some Point.Identity) := by
  intro E h d k h0 hq d0 dq k0 kq
  have hqz : E.q_order ≠ 0 := by omega
  have hknz : k ≠ 0 := by omega
  have hnlt : ¬ E.q_order < 2 := by omega
  rw [ECDSA.sign, if_pos hq, if_pos dq, if_pos kq]
  cases hR : EllipticCurve.scalarMulSpec E.elliptic_curve E.a_gen k with
  | none => simp
  | some pt =>
    cases pt with
    | Identity => simp
    | Coor x y =>
      simp [FiniteField.mult, FiniteField.add, FiniteField.modpow,
        FiniteField.inv_mult_prime, FiniteField.inv_multiplication, hqz, hknz, hnlt]

/-- Witness for sign_none_iff on the toy context with h = 1, d = 1, k = 7. -/
theorem sign_none_iff_witness :
    toyECDSA.sign 1 1 7 = none ↔
      EllipticCurve.scalarMulSpec toyECDSA.elliptic_curve toyECDSA.a_gen 7 = none ∨
      EllipticCurve.scalarMulSpec toyECDSA.elliptic_curve toyECDSA.a_gen 7
        = some Point.Identity :=
  sign_none_iff toyECDSA 1 1 7 (by decide) (by decide) (by decide) (by decide)
    (by decide) (by decide)

/-- C2 amended: verify performs no validation at all of r, s, or the public
    key: under its single assertion hash < q it is exactly the recombination
    P = u1 G + u2 Q followed by the comparison x(P) == r when P is affine
    and a panic when P is Infinity; in particular the out-of-range r = 0
    verifies as true on the toy context with hash 7 and s = 1. -/
theorem verify_unchecked :
    (∀ (E : ECDSA) (hash : Nat) (Q : Point) (r s : Nat), hash < E.q_order →
      E.verify hash Q (r, s) =
        Option.bind (ECDSA.recombinePoint E hash Q r s) (fun pt =>
          match pt with
          | Point.Coor xp _ => some (xp == r)
          | Point.Identity => none)) ∧
    toyECDSA.verify 7 toyG (0, 1) = some true := by
  constructor
  · intro E hash Q r s hh
    rw [ECDSA.verify, if_pos hh]
    simp only [ECDSA.recombinePoint, Option.bind_eq_bind, Option.bind_assoc]
  · decide

/-- Witness for verify_unchecked at the toy context, hash 1, key G and
    signature (18, 1). -/
theorem verify_unchecked_witness :
    toyECDSA.verify 1 toyG (18, 1) =
      Option.bind (ECDSA.recombinePoint toyECDSA 1 toyG 18 1) (fun pt =>
        match pt with
        | Point.Coor xp _ => some (xp == 18)
        | Point.Identity => none) :=
  verify_unchecked.1 toyECDSA 1 toyG 18 1 (by decide)

end ECDSARepo
